import Mathlib

/-!
# Verification of the goexmpp XMPP client library

Shallow embedding of the core data model and operations of the goexmpp
repository (an XMPP client library in Go): the SASL DIGEST-MD5 responder,
JID parsing and printing, the inbound stream filter's handler registry,
the outbound gate, the roster cache, stream-header serialisation, the
features tie-break, stanza dispatch, and the SASL challenge codec.

Go strings are byte sequences; where raw (non-UTF-8) bytes matter we model
strings as `List Nat` with each element a byte value.  Maps are modelled
as association lists or as functions into `Option`.
-/

namespace Goexmpp

set_option maxRecDepth 10000

/-! ## MD5 (host `crypto/md5`, used by `saslDigestResponse` in stream.go) -/

/-- All-ones 32-bit mask. -/
def mask32 : Nat := 4294967295

/-- 32-bit left rotation. -/
def rotl32 (x n : Nat) : Nat :=
  ((x <<< n) ||| (x >>> (32 - n))) &&& mask32

/-- The 64 MD5 sine-derived round constants. -/
def md5K : List Nat :=
  [0xd76aa478, 0xe8c7b756, 0x242070db, 0xc1bdceee,
   0xf57c0faf, 0x4787c62a, 0xa8304613, 0xfd469501,
   0x698098d8, 0x8b44f7af, 0xffff5bb1, 0x895cd7be,
   0x6b901122, 0xfd987193, 0xa679438e, 0x49b40821,
   0xf61e2562, 0xc040b340, 0x265e5a51, 0xe9b6c7aa,
   0xd62f105d, 0x02441453, 0xd8a1e681, 0xe7d3fbc8,
   0x21e1cde6, 0xc33707d6, 0xf4d50d87, 0x455a14ed,
   0xa9e3e905, 0xfcefa3f8, 0x676f02d9, 0x8d2a4c8a,
   0xfffa3942, 0x8771f681, 0x6d9d6122, 0xfde5380c,
   0xa4beea44, 0x4bdecfa9, 0xf6bb4b60, 0xbebfbc70,
   0x289b7ec6, 0xeaa127fa, 0xd4ef3085, 0x04881d05,
   0xd9d4d039, 0xe6db99e5, 0x1fa27cf8, 0xc4ac5665,
   0xf4292244, 0x432aff97, 0xab9423a7, 0xfc93a039,
   0x655b59c3, 0x8f0ccc92, 0xffeff47d, 0x85845dd1,
   0x6fa87e4f, 0xfe2ce6e0, 0xa3014314, 0x4e0811a1,
   0xf7537e82, 0xbd3af235, 0x2ad7d2bb, 0xeb86d391]

/-- The 64 MD5 per-round left-rotation amounts. -/
def md5S : List Nat :=
  [7, 12, 17, 22, 7, 12, 17, 22, 7, 12, 17, 22, 7, 12, 17, 22,
   5, 9, 14, 20, 5, 9, 14, 20, 5, 9, 14, 20, 5, 9, 14, 20,
   4, 11, 16, 23, 4, 11, 16, 23, 4, 11, 16, 23, 4, 11, 16, 23,
   6, 10, 15, 21, 6, 10, 15, 21, 6, 10, 15, 21, 6, 10, 15, 21]

/-- MD5 nonlinear mixing function for round `i`. -/
def md5F (i b c d : Nat) : Nat :=
  if i < 16 then (b &&& c) ||| ((b ^^^ mask32) &&& d)
  else if i < 32 then (d &&& b) ||| ((d ^^^ mask32) &&& c)
  else if i < 48 then b ^^^ c ^^^ d
  else c ^^^ (b ||| (d ^^^ mask32))

/-- Message-word schedule index for round `i`. -/
def md5G (i : Nat) : Nat :=
  if i < 16 then i
  else if i < 32 then (5 * i + 1) % 16
  else if i < 48 then (3 * i + 5) % 16
  else (7 * i) % 16

/-- One MD5 round: `m` gives the 16 message words of the current chunk. -/
def md5Round (m : Nat → Nat) (st : Nat × Nat × Nat × Nat) (i : Nat) :
    Nat × Nat × Nat × Nat :=
  let a := st.1
  let b := st.2.1
  let c := st.2.2.1
  let d := st.2.2.2
  let f := (md5F i b c d + a + md5K.getD i 0 + m (md5G i)) &&& mask32
  (d, (b + rotl32 f (md5S.getD i 0)) &&& mask32, b, c)

/-- Process one 512-bit chunk. -/
def md5Chunk (m : Nat → Nat) (st : Nat × Nat × Nat × Nat) :
    Nat × Nat × Nat × Nat :=
  let r := (List.range 64).foldl (md5Round m) st
  ((st.1 + r.1) &&& mask32, (st.2.1 + r.2.1) &&& mask32,
   (st.2.2.1 + r.2.2.1) &&& mask32, (st.2.2.2 + r.2.2.2) &&& mask32)

/-- MD5 padding: a 0x80 byte, zeros to 56 mod 64, then the 64-bit
little-endian bit length. -/
def md5Pad (msg : List Nat) : List Nat :=
  let len := msg.length
  let zeros := (119 - len % 64) % 64
  let bitLen := 8 * len
  msg ++ [128] ++ List.replicate zeros 0 ++
    (List.range 8).map (fun i => (bitLen >>> (8 * i)) &&& 255)

/-- The `i`-th little-endian 32-bit word of a byte list. -/
def md5WordAt (padded : List Nat) (i : Nat) : Nat :=
  padded.getD (4 * i) 0 + 256 * padded.getD (4 * i + 1) 0 +
    65536 * padded.getD (4 * i + 2) 0 + 16777216 * padded.getD (4 * i + 3) 0

/-- A 32-bit word as four little-endian bytes. -/
def wordLE (x : Nat) : List Nat :=
  [x &&& 255, (x >>> 8) &&& 255, (x >>> 16) &&& 255, (x >>> 24) &&& 255]

/-- MD5 digest of a byte list: 16 bytes. -/
def md5 (msg : List Nat) : List Nat :=
  let padded := md5Pad msg
  let nChunks := padded.length / 64
  let r := (List.range nChunks).foldl
    (fun st ci => md5Chunk (fun g => md5WordAt padded (16 * ci + g)) st)
    (0x67452301, 0xefcdab89, 0x98badcfe, 0x10325476)
  wordLE r.1 ++ wordLE r.2.1 ++ wordLE r.2.2.1 ++ wordLE r.2.2.2

/-! ## Byte-string helpers -/

/-- ASCII code of the hex digit for `n < 16` (lowercase, as Go `%x`). -/
def hexDigit (n : Nat) : Nat := if n < 10 then 48 + n else 87 + n

/-- Lowercase hex encoding of a byte list, as a byte list of ASCII digits
(Go `fmt.Sprintf("%x", bytes)`). -/
def bytesToHex (bs : List Nat) : List Nat :=
  bs.flatMap (fun b => [hexDigit (b >>> 4), hexDigit (b &&& 15)])

/-- The byte list of an ASCII Lean string literal. -/
def ascii (s : String) : List Nat := s.data.map Char.toNat

/-! ## saslDigestResponse (stream.go lines 474-495) -/

/-- Embedding of `saslDigestResponse` from stream.go.  Go strings are byte
sequences, so all parameters and the intermediate values (notably `a1`,
whose first component is the raw 16-byte MD5 output coerced to a string
by `string(h(...))`) are byte lists. -/
def saslDigestResponse (username realm passwd nonce cnonceStr authenticate
    digestUri nonceCountStr : List Nat) : List Nat :=
  let h := fun (text : List Nat) => md5 text
  let hex := fun (bytes : List Nat) => bytesToHex bytes
  let kd := fun (secret data : List Nat) => h (secret ++ ascii ":" ++ data)
  let a1 := h (username ++ ascii ":" ++ realm ++ ascii ":" ++ passwd) ++
    ascii ":" ++ nonce ++ ascii ":" ++ cnonceStr
  let a2 := authenticate ++ ascii ":" ++ digestUri
  hex (kd (hex (h a1)) (nonce ++ ascii ":" ++ nonceCountStr ++ ascii ":" ++
    cnonceStr ++ ascii ":auth:" ++ hex (h a2)))



/-! ## JID (structs.go lines 23-28, 164-189)

Go strings are modelled as `List Char` in this section. -/

/-- A character accepted by the JID regex character class `[^@/]`. -/
def isJidChar (c : Char) : Bool := c ≠ '@' && c ≠ '/'

/-- A non-empty run of `[^@/]` characters, i.e. a match of `[^@/]+`. -/
def validPart (cs : List Char) : Bool := !cs.isEmpty && cs.all isJidChar

/-- Split a list at the first occurrence of `sep`, if any. -/
def splitFirst (sep : Char) : List Char → Option (List Char × List Char)
  | [] => none
  | c :: cs =>
    if c = sep then some ([], cs)
    else
      match splitFirst sep cs with
      | some (pre, post) => some (c :: pre, post)
      | none => none

/-- Match the suffix `([^@/]+)(/([^@/]+))?$` of the JID regex: domain and
optional resource.  The `/` in the pattern must consume the first `/` (the
domain class excludes it), so splitting at the first `/` is exact. -/
def parseDomRes (cs : List Char) : Option (List Char × List Char) :=
  match splitFirst '/' cs with
  | some (dom, res) =>
    if validPart dom && validPart res then some (dom, res) else none
  | none => if validPart cs then some (cs, []) else none

/-- Match the JID regex `^(([^@/]+)@)?([^@/]+)(/([^@/]+))?$` of `JID.Set`
(structs.go 176), returning the captures (group 2, group 3, group 5).  The
optional node group, when taken, must consume the first `@` (the node class
excludes `@`); when the input has an `@` the group is forced, when it has
none the group cannot match, so the decomposition is unique. -/
def jidMatch (cs : List Char) :
    Option (Option (List Char) × List Char × List Char) :=
  match splitFirst '@' cs with
  | some (node, rest) =>
    if validPart node then
      match parseDomRes rest with
      | some (dom, res) => some (some node, dom, res)
      | none => none
    else none
  | none =>
    match parseDomRes cs with
    | some (dom, res) => some (none, dom, res)
    | none => none

/-- JID (structs.go 23-28): `Node *string; Domain string; Resource string`. -/
structure JID where
  Node : Option (List Char)
  Domain : List Char
  Resource : List Char
deriving DecidableEq

/-- `JID.Set` (structs.go 175-189): parse `val` with the regex; on success
assign the captures (a nil `Node` when group 2 is empty) and return true.
Modelled as returning `some` of the assigned JID for true, `none` for
false. -/
def JID.set (val : List Char) : Option JID :=
  match jidMatch val with
  | some (node, dom, res) => some ⟨node, dom, res⟩
  | none => none

/-- `JID.String` (structs.go 164-173). -/
def JID.str (jid : JID) : List Char :=
  let result := jid.Domain
  let result :=
    match jid.Node with
    | some n => n ++ '@' :: result
    | none => result
  if jid.Resource ≠ [] then result ++ '/' :: jid.Resource else result

/-- `s` parses successfully and the parsed JID prints back to exactly `s`. -/
def jidRoundTrips (s : List Char) : Prop :=
  (JID.set s).map JID.str = some s

/-! ## Roster cache (roster.go 26-32 and 118-136) -/

/-- RosterItem (roster.go 26-32); the constant `XMLName` is omitted. -/
structure RosterItem where
  Jid : String
  Subscription : String
  Name : String
  Group : List String
deriving DecidableEq

/-- One update received by `feedRoster` (roster.go 123-128): an item with
subscription "remove" deletes its jid from the cache, any other item is
stored under its jid. -/
def rosterUpdateStep (roster : String → Option RosterItem) (newIt : RosterItem) :
    String → Option RosterItem :=
  if newIt.Subscription = "remove" then
    fun j => if j = newIt.Jid then none else roster j
  else
    fun j => if j = newIt.Jid then some newIt else roster j

/-- The roster cache after `feedRoster` consumes `items` in order. -/
def feedRosterUpdates (init : String → Option RosterItem)
    (items : List RosterItem) : String → Option RosterItem :=
  items.foldl rosterUpdateStep init

/-- The empty roster cache `make(map[string] RosterItem)`. -/
def emptyRoster : String → Option RosterItem := fun _ => none

/-! ## Stanza data model (part_004: Stanza interface and its variants) -/

/-- Roster query payload `<query xmlns="jabber:iq:roster">` (roster.go
20-23). -/
structure RosterQuery where
  Item : List RosterItem
deriving DecidableEq

/-- A nested extension payload attached to a stanza (`st.GetNested()`), as
far as the claims need it: a roster query or some other extension value. -/
inductive NestedVal
  | rosterQuery (rq : RosterQuery)
  | otherVal
deriving DecidableEq

/-- The attribute set every stanza variant carries (part_004 109-157).  The
Go field `Type` is rendered `Typ` (keyword clash). -/
structure StanzaFields where
  To : String := ""
  From : String := ""
  Id : String := ""
  Typ : String := ""
  Lang : String := ""
  Nested : Option NestedVal := none
deriving DecidableEq

/-- The three stanza variants Iq, Message, Presence. -/
inductive Stanza
  | iq (f : StanzaFields)
  | message (f : StanzaFields)
  | presence (f : StanzaFields)
deriving DecidableEq

def Stanza.fields : Stanza → StanzaFields
  | .iq f => f
  | .message f => f
  | .presence f => f

/-- `GetName` returns "iq", "message", or "presence" by variant. -/
def Stanza.getName : Stanza → String
  | .iq _ => "iq"
  | .message _ => "message"
  | .presence _ => "presence"

def Stanza.getTo (st : Stanza) : String := st.fields.To

def Stanza.getFrom (st : Stanza) : String := st.fields.From

def Stanza.getId (st : Stanza) : String := st.fields.Id

def Stanza.getType (st : Stanza) : String := st.fields.Typ

def Stanza.getLang (st : Stanza) : String := st.fields.Lang

def Stanza.getNested (st : Stanza) : Option NestedVal := st.fields.Nested

/-! ## Inbound stream filter: handler correlation (part_006 220-266,
stream.go 192-232) -/

/-- The handler registry owned by `readStream`: a Go map from stanza id to
callback.  The code removes a fired handler by storing nil, and a nil entry
behaves exactly like an absent one, so the map is modelled as a lookup
function into `Option`. -/
abbrev Handlers : Type := String → Option (Stanza → Bool)

/-- Map assignment `handlers[id] = f` (`f = none` models storing nil). -/
def handlersSet (h : Handlers) (id : String) (f : Option (Stanza → Bool)) :
    Handlers :=
  fun k => if k = id then f else h k

/-- `readStream`'s processing of one inbound stanza (part_006 250-264): if a
handler is registered under the stanza's id it is called, removed, and its
result decides delivery; otherwise the stanza is delivered.  Returns the new
registry, the stanzas forwarded on the application channel `cliOut`, and the
ids of the handlers invoked. -/
def readStreamStanza (handlers : Handlers) (st : Stanza) :
    Handlers × List Stanza × List String :=
  match handlers st.getId with
  | some f =>
    (handlersSet handlers st.getId none, if f st then [st] else [], [st.getId])
  | none => (handlers, [st], [])

/-! ## Outbound gate (part_006 272-296) -/

/-- An event consumed by the `writeStream` select loop: a status on the
control channel, or an application stanza on `cliIn`. -/
inductive GateEvent
  | control (status : Int)
  | app (st : Stanza)
deriving DecidableEq

/-- One select iteration of `writeStream`: status 0 sets `input` to nil
(paused), status 1 sets it to `cliIn` (open), -1 merely breaks out of the
select (any other status does nothing).  A receive on a nil Go channel can
never fire, so while paused an application stanza is not forwarded (its
sender stays blocked). -/
def gateStep (inputOpen : Bool) : GateEvent → Bool × List Stanza
  | .control s =>
    if s = 0 then (false, [])
    else if s = 1 then (true, [])
    else (inputOpen, [])
  | .app st => if inputOpen then (inputOpen, [st]) else (inputOpen, [])

/-- The stanzas `writeStream` forwards to `srvOut` over a sequence of
events, starting from gate state `inputOpen`. -/
def gateRun (inputOpen : Bool) : List GateEvent → List Stanza
  | [] => []
  | e :: es => (gateStep inputOpen e).2 ++ gateRun (gateStep inputOpen e).1 es

/-- The gate task as `writeStream` starts it: `var input <-chan Stanza` is
nil, so the gate starts paused. -/
def writeStreamRun (events : List GateEvent) : List Stanza :=
  gateRun false events

/-! ## handleFeatures (stream.go 248-265, part_006 337-355) -/

/-- `<starttls>` advertisement (structs.go 71-74). -/
structure Starttls where
  Required : Option String
deriving DecidableEq

/-- `<bind>` advertisement (part_004 171-175). -/
structure BindIq where
  Resource : Option String
  Jid : Option String
deriving DecidableEq

/-- Features (part_004 60-66); `Mechanism` is the inner list
`Features.Mechanisms.Mechanism`. -/
structure Features where
  Starttls : Option Starttls
  Mechanism : List String
  Bind : Option BindIq
deriving DecidableEq

/-- The routine `handleFeatures` hands the advertisement to. -/
inductive FeaturesAction
  | sendStartTls
  | chooseSasl
  | bindResource
  | noAction
deriving DecidableEq

/-- The branch `handleFeatures` (stream.go 248-265) takes: emit the starttls
request if starttls is advertised, else enter SASL selection if any
mechanism is advertised, else send the resource-bind request if bind is
advertised, else do nothing. -/
def handleFeaturesAction (fe : Features) : FeaturesAction :=
  if fe.Starttls.isSome then .sendStartTls
  else if fe.Mechanism.length > 0 then .chooseSasl
  else if fe.Bind.isSome then .bindResource
  else .noAction

/-! ## ParseStanza (part_004 498-525) -/

/-- A start element as delivered by the host XML tokenizer
(`xml.StartElement`): namespace, local name, and attributes (local name,
value).  The host tokenizer and unmarshaller are external collaborators;
a well-formed document is modelled by its root start element. -/
structure StartElement where
  Space : String
  Local : String
  Attr : List (String × String)
deriving DecidableEq

/-- The value of the named attribute, or "" if absent. -/
def attrValue (se : StartElement) (name : String) : String :=
  match se.Attr.find? (fun a => a.1 = name) with
  | some a => a.2
  | none => ""

/-- The host `p.Unmarshal` filling a stanza struct's attribute fields from
the root start element. -/
def unmarshalFields (se : StartElement) : StanzaFields :=
  { To := attrValue se "to", From := attrValue se "from",
    Id := attrValue se "id", Typ := attrValue se "type",
    Lang := attrValue se "lang", Nested := none }

/-- `ParseStanza` (part_004 498-525): allocate an Iq, Message or Presence
according to the root's local name and unmarshal into it; any other root
local name is an error ("Not iq, message, or presence"). -/
def ParseStanza (root : StartElement) : Except String Stanza :=
  if root.Local = "iq" then .ok (.iq (unmarshalFields root))
  else if root.Local = "message" then .ok (.message (unmarshalFields root))
  else if root.Local = "presence" then .ok (.presence (unmarshalFields root))
  else .error "Not iq, message, or presence"

/-! ## maybeUpdateRoster (roster.go 103-116) -/

/-- `maybeUpdateRoster` (roster.go 103-116): when the stanza is an iq of
type "set" whose nested payload is a roster query, feed every item to the
roster cache's update channel and send a reply iq of type "result" carrying
the received stanza's id on `client.Out`.  Returns (items fed to
`rosterUpdate`, stanzas sent on `client.Out`). -/
def maybeUpdateRoster (st : Stanza) : List RosterItem × List Stanza :=
  match st.getNested with
  | some (.rosterQuery rq) =>
    if st.getName = "iq" ∧ st.getType = "set" then
      (rq.Item, [Stanza.iq { To := st.getFrom, Id := st.getId, Typ := "result" }])
    else ([], [])
  | _ => ([], [])

/-! ## Stream header serialisation (structs.go 33-39, 191-204, 252-260)

Go strings are modelled as `List Char` in this section. -/

/-- nsStream (structs.go 444). -/
def nsStream : String := "http://etherx.jabber.org/streams"

/-- One character's expansion under the host `xml.Escape` (encoding/xml of
the Go release the code targets): the five XML special characters become
character references. -/
def xmlEscapeChar (c : Char) : List Char :=
  if c = '"' then "&#34;".data
  else if c = Char.ofNat 39 then "&#39;".data
  else if c = '&' then "&amp;".data
  else if c = '<' then "&lt;".data
  else if c = '>' then "&gt;".data
  else [c]

/-- The host `xml.Escape` applied to a value. -/
def xmlEscape (s : List Char) : List Char := s.flatMap xmlEscapeChar

/-- writeField (structs.go 252-260): emit nothing for an empty value, else
a space, the field name, `="`, the escaped value, and `"`. -/
def writeField (field value : List Char) : List Char :=
  if value = [] then []
  else ' ' :: (field ++ '=' :: '"' :: (xmlEscape value ++ ['"']))

/-- stream (structs.go 33-39): the <stream:stream> attribute set. -/
structure StreamHeader where
  To : List Char
  From : List Char
  Id : List Char
  Lang : List Char
  Version : List Char

/-- stream.MarshalXML (structs.go 191-204): hand-written serialisation of
the stream header.  The comment in the source notes that `</stream:stream>`
is never written. -/
def streamMarshalXML (s : StreamHeader) : List Char :=
  "<stream:stream".data ++
  writeField "xmlns".data "jabber:client".data ++
  writeField "xmlns:stream".data nsStream.data ++
  writeField "to".data s.To ++
  writeField "from".data s.From ++
  writeField "id".data s.Id ++
  writeField "xml:lang".data s.Lang ++
  writeField "version".data s.Version ++
  [('>' : Char)]

/-- Modelled from the spec's words: a single opening tag carrying the two
namespace declarations and then exactly the attributes to, from, id,
xml:lang, version in that order, each omitted when its value is empty. -/
def streamHeaderSpecShape (s : StreamHeader) : List Char :=
  "<stream:stream xmlns=\"jabber:client\" xmlns:stream=\"http://etherx.jabber.org/streams\"".data ++
  writeField "to".data s.To ++
  writeField "from".data s.From ++
  writeField "id".data s.Id ++
  writeField "xml:lang".data s.Lang ++
  writeField "version".data s.Version ++
  [('>' : Char)]

/-- Everything `stream.MarshalXML` writes after its first character. -/
def streamMarshalTail (s : StreamHeader) : List Char :=
  "stream:stream".data ++
  writeField "xmlns".data "jabber:client".data ++
  writeField "xmlns:stream".data nsStream.data ++
  writeField "to".data s.To ++
  writeField "from".data s.From ++
  writeField "id".data s.Id ++
  writeField "xml:lang".data s.Lang ++
  writeField "version".data s.Version ++
  [('>' : Char)]

/-! ## SASL challenge codec (stream.go 449-471)

Go strings are modelled as `List Char`; the Go map handed to packSasl is
modelled as an association list in its iteration order. -/

/-- `strings.ToLower` on one character, restricted to ASCII (the Go
function also maps non-ASCII letters; SASL keys are ASCII). -/
def goToLowerChar (c : Char) : Char :=
  if 'A' ≤ c ∧ c ≤ 'Z' then Char.ofNat (c.toNat + 32) else c

/-- `strings.ToLower`. -/
def goToLower (s : List Char) : List Char := s.map goToLowerChar

/-- The FindAll scan of the challenge regex `([^=]+)="?([^",]+)"?,?` used
by parseSasl (stream.go 450-451): collect the two captures of each match
from left to right.  The greedy `[^=]+` before a forced `=` makes each
match start at the maximal run of non-`=` characters; the fuel bounds the
recursion, each step consuming at least the matched or skipped `=`. -/
def saslScan : Nat → List Char → List (List Char × List Char)
  | 0, _ => []
  | fuel + 1, cs =>
    let key := cs.takeWhile (fun c => c ≠ '=')
    let rest0 := cs.dropWhile (fun c => c ≠ '=')
    if rest0.head? = some '=' then
      let rest1 := rest0.tail
      if key = [] then saslScan fuel rest1
      else
        let rest2 := if rest1.head? = some '"' then rest1.tail else rest1
        let value := rest2.takeWhile (fun c => c ≠ '"' && c ≠ ',')
        let rest3 := rest2.dropWhile (fun c => c ≠ '"' && c ≠ ',')
        if value = [] then saslScan fuel rest3
        else
          let rest4 := if rest3.head? = some '"' then rest3.tail else rest3
          let rest5 := if rest4.head? = some ',' then rest4.tail else rest4
          (key, value) :: saslScan fuel rest5
    else []

/-- One Go map assignment `m[ToLower(key)] = value` performed by parseSasl,
on a map represented by its lookup function. -/
def saslMapAssign (m : List Char → Option (List Char))
    (kv : List Char × List Char) : List Char → Option (List Char) :=
  fun k => if k = goToLower kv.1 then some kv.2 else m k

/-- parseSasl (stream.go 449-459): scan the challenge with the regex and
assign every captured pair into a fresh map, keys lower-cased. -/
def parseSasl (cs : List Char) : List Char → Option (List Char) :=
  (saslScan cs.length cs).foldl saslMapAssign (fun _ => none)

/-- `strings.Join(terms, ",")`. -/
def joinComma : List (List Char) → List Char
  | [] => []
  | [t] => t
  | t :: ts => t ++ ',' :: joinComma ts

/-- packSasl (stream.go 461-471): emit `key=value` terms joined by commas,
skipping pairs with an empty key, an empty value, or the literal value
`""`. -/
def packSasl (m : List (List Char × List Char)) : List Char :=
  joinComma ((m.filter (fun kv =>
    !(kv.1 == [] || kv.2 == [] || kv.2 == ['"', '"']))).map
    (fun kv => kv.1 ++ '=' :: kv.2))

/-- The claim's well-formedness of one challenge-map entry: non-empty key
already in lower case and non-empty value, neither containing `=`, `"` or
`,`. -/
def SaslEntryOk (kv : List Char × List Char) : Prop :=
  kv.1 ≠ [] ∧ kv.2 ≠ [] ∧ goToLower kv.1 = kv.1 ∧
    (∀ c ∈ kv.1, c ≠ '=' ∧ c ≠ '"' ∧ c ≠ ',') ∧
    (∀ c ∈ kv.2, c ≠ '=' ∧ c ≠ '"' ∧ c ≠ ',')

instance (kv : List Char × List Char) : Decidable (SaslEntryOk kv) := by
  unfold SaslEntryOk
  infer_instance

/-! # Theorems -/

/-- C1: `saslDigestResponse` applied to the RFC 2831 §4 test-vector inputs
("chris", "elwood.innosoft.com", "secret", "OA6MG9tEQGm2hh",
"OA6MHXh6VqTrRk", "AUTHENTICATE", "imap/elwood.innosoft.com", "00000001")
returns exactly the string "d388dad90d4bbd760a152321f2143af7". -/
theorem saslDigestResponse_rfc2831_vector :
    saslDigestResponse (ascii "chris") (ascii "elwood.innosoft.com")
      (ascii "secret") (ascii "OA6MG9tEQGm2hh") (ascii "OA6MHXh6VqTrRk")
      (ascii "AUTHENTICATE") (ascii "imap/elwood.innosoft.com")
      (ascii "00000001")
    = ascii "d388dad90d4bbd760a152321f2143af7" := by decide


/-! ### Helper lemmas -/

theorem splitFirst_of_not_mem {sep : Char} {cs : List Char} (h : sep ∉ cs) :
    splitFirst sep cs = none := by
  induction cs with
  | nil => rfl
  | cons c cs ih =>
    have hc : c ≠ sep := fun hc => h (hc ▸ List.mem_cons_self c cs)
    have hcs : sep ∉ cs := fun hm => h (List.mem_cons_of_mem c hm)
    simp [splitFirst, hc, ih hcs]

theorem splitFirst_append {sep : Char} {l r : List Char} (h : sep ∉ l) :
    splitFirst sep (l ++ sep :: r) = some (l, r) := by
  induction l with
  | nil => simp [splitFirst]
  | cons c cs ih =>
    have hc : c ≠ sep := fun hc => h (hc ▸ List.mem_cons_self c cs)
    have hcs : sep ∉ cs := fun hm => h (List.mem_cons_of_mem c hm)
    simp [splitFirst, hc, ih hcs]

theorem validPart_not_mem {cs : List Char} (h : validPart cs = true) :
    '@' ∉ cs ∧ '/' ∉ cs := by
  simp only [validPart, Bool.and_eq_true, List.all_eq_true, isJidChar] at h
  exact ⟨fun hm => absurd (h.2 _ hm) (by decide),
         fun hm => absurd (h.2 _ hm) (by decide)⟩

theorem validPart_ne_nil {cs : List Char} (h : validPart cs = true) :
    cs ≠ [] := by
  simp only [validPart, Bool.and_eq_true] at h
  intro hnil
  subst hnil
  simp at h

theorem parseDomRes_split {dom res : List Char} (hd : validPart dom = true)
    (hr : validPart res = true) (hdS : '/' ∉ dom) :
    parseDomRes (dom ++ '/' :: res) = some (dom, res) := by
  unfold parseDomRes
  rw [splitFirst_append hdS]
  simp [hd, hr]

theorem parseDomRes_plain {dom : List Char} (hd : validPart dom = true)
    (hdS : '/' ∉ dom) : parseDomRes dom = some (dom, []) := by
  unfold parseDomRes
  rw [splitFirst_of_not_mem hdS]
  simp [hd]

theorem jidMatch_node {user rest : List Char} (huA : '@' ∉ user)
    (hu : validPart user = true) :
    jidMatch (user ++ '@' :: rest) =
      match parseDomRes rest with
      | some (dom, res) => some (some user, dom, res)
      | none => none := by
  unfold jidMatch
  rw [splitFirst_append huA]
  simp [hu]

theorem jidMatch_plain {cs : List Char} (h : '@' ∉ cs) :
    jidMatch cs =
      match parseDomRes cs with
      | some (dom, res) => some (none, dom, res)
      | none => none := by
  unfold jidMatch
  rw [splitFirst_of_not_mem h]

/-- Claim C2: for every string of the shapes user@domain/res, domain,
domain/res and user@domain — each part a non-empty string containing
neither '@' nor '/' — `JID.Set` returns true and the resulting JID's
`String()` returns exactly the input (the spec's "domain.tld" example is
the bare-domain shape, '.' being an ordinary JID character). -/
theorem jid_set_string_roundtrip (user dom res : List Char)
    (hu : validPart user = true) (hd : validPart dom = true)
    (hr : validPart res = true) :
    jidRoundTrips (user ++ '@' :: (dom ++ '/' :: res)) ∧
    jidRoundTrips dom ∧
    jidRoundTrips (dom ++ '/' :: res) ∧
    jidRoundTrips (user ++ '@' :: dom) := by
  obtain ⟨huA, _⟩ := validPart_not_mem hu
  obtain ⟨hdA, hdS⟩ := validPart_not_mem hd
  obtain ⟨hrA, _⟩ := validPart_not_mem hr
  have hresne := validPart_ne_nil hr
  refine ⟨?_, ?_, ?_, ?_⟩
  · -- user@domain/res
    unfold jidRoundTrips JID.set
    rw [jidMatch_node huA hu, parseDomRes_split hd hr hdS]
    simp [JID.str, hresne, List.append_assoc]
  · -- domain
    unfold jidRoundTrips JID.set
    rw [jidMatch_plain hdA, parseDomRes_plain hd hdS]
    simp [JID.str]
  · -- domain/res
    have hA : '@' ∉ dom ++ '/' :: res := by
      intro hm
      rcases List.mem_append.mp hm with hm | hm
      · exact hdA hm
      · rcases List.mem_cons.mp hm with hm | hm
        · exact absurd hm (by decide)
        · exact hrA hm
    unfold jidRoundTrips JID.set
    rw [jidMatch_plain hA, parseDomRes_split hd hr hdS]
    simp [JID.str, hresne]
  · -- user@domain
    unfold jidRoundTrips JID.set
    rw [jidMatch_node huA hu, parseDomRes_plain hd hdS]
    simp [JID.str]

theorem jid_set_string_roundtrip_witness :
    jidRoundTrips ("user".data ++ '@' :: ("domain".data ++ '/' :: "res".data)) ∧
    jidRoundTrips "domain.tld".data ∧
    jidRoundTrips ("domain.tld".data ++ '/' :: "res".data) ∧
    jidRoundTrips ("user".data ++ '@' :: "domain.tld".data) := by
  have h := jid_set_string_roundtrip "user".data "domain.tld".data "res".data
    (by decide) (by decide) (by decide)
  have h2 := jid_set_string_roundtrip "user".data "domain".data "res".data
    (by decide) (by decide) (by decide)
  exact ⟨h2.1, h.2.1, h.2.2.1, h.2.2.2⟩

theorem rosterUpdateStep_keep (r : String → Option RosterItem)
    (it : RosterItem) (j : String) (h : it.Subscription ≠ "remove") :
    rosterUpdateStep r it j = if j = it.Jid then some it else r j := by
  simp [rosterUpdateStep, h]

theorem rosterUpdateStep_remove (r : String → Option RosterItem)
    (it : RosterItem) (j : String) (h : it.Subscription = "remove") :
    rosterUpdateStep r it j = if j = it.Jid then none else r j := by
  simp [rosterUpdateStep, h]

/-- Claim C5: from the empty cache, feeding items A, B, A' (same jid for A
and A', a different jid for B, none with subscription "remove") yields the
cache mapping A's jid to A' and B's jid to B; then feeding an item R with
A's jid and subscription "remove" leaves only B. -/
theorem feedRoster_update_sequence (A B A' R : RosterItem)
    (hAA : A'.Jid = A.Jid) (hBA : B.Jid ≠ A.Jid)
    (hA : A.Subscription ≠ "remove") (hB : B.Subscription ≠ "remove")
    (hA' : A'.Subscription ≠ "remove")
    (hRj : R.Jid = A'.Jid) (hRs : R.Subscription = "remove") :
    feedRosterUpdates emptyRoster [A, B, A'] =
      (fun j => if j = A'.Jid then some A' else
        if j = B.Jid then some B else none) ∧
    feedRosterUpdates emptyRoster [A, B, A', R] =
      (fun j => if j = B.Jid then some B else none) := by
  have key : ∀ j, feedRosterUpdates emptyRoster [A, B, A'] j =
      if j = A'.Jid then some A' else
        if j = B.Jid then some B else none := by
    intro j
    show rosterUpdateStep (rosterUpdateStep (rosterUpdateStep emptyRoster A) B) A' j = _
    rw [rosterUpdateStep_keep _ _ _ hA']
    by_cases h1 : j = A'.Jid
    · simp [h1]
    · rw [if_neg h1, if_neg h1, rosterUpdateStep_keep _ _ _ hB]
      by_cases h2 : j = B.Jid
      · simp [h2]
      · rw [if_neg h2, if_neg h2, rosterUpdateStep_keep _ _ _ hA]
        have h3 : j ≠ A.Jid := fun hc => h1 (hc.trans hAA.symm)
        rw [if_neg h3]
        rfl
  constructor
  · funext j
    exact key j
  · funext j
    show rosterUpdateStep (feedRosterUpdates emptyRoster [A, B, A']) R j = _
    rw [rosterUpdateStep_remove _ _ _ hRs, hRj]
    by_cases h1 : j = A'.Jid
    · rw [if_pos h1]
      have hjB : j ≠ B.Jid := by
        rw [h1, hAA]
        exact fun hc => hBA hc.symm
      rw [if_neg hjB]
    · rw [if_neg h1, key j, if_neg h1]

theorem feedRoster_update_sequence_witness :
    feedRosterUpdates emptyRoster
      [⟨"a@x", "both", "", []⟩, ⟨"b@x", "both", "", []⟩,
       ⟨"a@x", "to", "Ann", []⟩] =
      (fun j => if j = "a@x" then some ⟨"a@x", "to", "Ann", []⟩ else
        if j = "b@x" then some ⟨"b@x", "both", "", []⟩ else none) ∧
    feedRosterUpdates emptyRoster
      [⟨"a@x", "both", "", []⟩, ⟨"b@x", "both", "", []⟩,
       ⟨"a@x", "to", "Ann", []⟩, ⟨"a@x", "remove", "", []⟩] =
      (fun j => if j = "b@x" then some ⟨"b@x", "both", "", []⟩ else none) :=
  feedRoster_update_sequence _ _ _ _ rfl (by decide) (by decide) (by decide)
    (by decide) rfl rfl

/-- Claim C3: when a stanza arrives whose id has a registered handler, that
handler is invoked exactly once (the invocation list is exactly its id) and
removed from the registry, the stanza is forwarded on the application
channel iff the handler returned true, and a later stanza with the same id
is delivered to the application without any handler invocation. -/
theorem readStream_handler_correlation (h : Handlers) (f : Stanza → Bool)
    (st st' : Stanza) (hreg : h st.getId = some f)
    (hsame : st'.getId = st.getId) :
    (readStreamStanza h st).2.2 = [st.getId] ∧
    (readStreamStanza h st).1 st.getId = none ∧
    (readStreamStanza h st).2.1 = (if f st then [st] else []) ∧
    readStreamStanza (readStreamStanza h st).1 st' =
      ((readStreamStanza h st).1, [st'], []) := by
  have h1 : readStreamStanza h st =
      (handlersSet h st.getId none, if f st then [st] else [], [st.getId]) := by
    simp [readStreamStanza, hreg]
  refine ⟨by rw [h1], ?_, by rw [h1], ?_⟩
  · rw [h1]
    simp [handlersSet]
  · rw [h1]
    simp only [readStreamStanza, handlersSet, hsame, if_pos]

theorem readStream_handler_correlation_witness :
    (readStreamStanza
      (handlersSet (fun _ => none) "id_7" (some (fun _ => false)))
      (Stanza.iq { Id := "id_7" })).2.2 = ["id_7"] ∧
    (readStreamStanza
      (handlersSet (fun _ => none) "id_7" (some (fun _ => false)))
      (Stanza.iq { Id := "id_7" })).1 "id_7" = none ∧
    (readStreamStanza
      (handlersSet (fun _ => none) "id_7" (some (fun _ => false)))
      (Stanza.iq { Id := "id_7" })).2.1 =
      (if (fun (_ : Stanza) => false) (Stanza.iq { Id := "id_7" })
        then [Stanza.iq { Id := "id_7" }] else []) ∧
    readStreamStanza
      (readStreamStanza
        (handlersSet (fun _ => none) "id_7" (some (fun _ => false)))
        (Stanza.iq { Id := "id_7" })).1
      (Stanza.message { Id := "id_7" }) =
      ((readStreamStanza
        (handlersSet (fun _ => none) "id_7" (some (fun _ => false)))
        (Stanza.iq { Id := "id_7" })).1,
       [Stanza.message { Id := "id_7" }], []) := by
  exact readStream_handler_correlation
    (handlersSet (fun _ => none) "id_7" (some (fun _ => false)))
    (fun _ => false) (Stanza.iq { Id := "id_7" })
    (Stanza.message { Id := "id_7" })
    (by simp [handlersSet, Stanza.getId, Stanza.fields]) rfl

/-- Claim C4: the outbound gate starts paused (`writeStreamRun` starts with
a nil input channel), and as long as no RESUME (status 1) arrives on the
control channel, no application stanza is forwarded to the XML encoder. -/
theorem writeStream_paused_until_resume (events : List GateEvent)
    (hnoresume : ∀ e ∈ events, e ≠ GateEvent.control 1) :
    writeStreamRun events = [] := by
  have key : ∀ es : List GateEvent,
      (∀ e ∈ es, e ≠ GateEvent.control 1) → gateRun false es = [] := by
    intro es
    induction es with
    | nil => intro _; rfl
    | cons e es ih =>
      intro hno
      have he : e ≠ GateEvent.control 1 := hno e (List.mem_cons_self e es)
      have hes := fun e' he' => hno e' (List.mem_cons_of_mem e he')
      have hstep : gateStep false e = (false, []) := by
        match e with
        | .control s =>
          have hs : s ≠ 1 := fun hc => he (by rw [hc])
          simp [gateStep, hs]
        | .app st => rfl
      rw [gateRun, hstep]
      simpa using ih hes
  exact key events hnoresume

theorem writeStream_paused_until_resume_witness :
    writeStreamRun
      [GateEvent.control 0, GateEvent.app (Stanza.presence {}),
       GateEvent.control (-1), GateEvent.app (Stanza.iq { Id := "id_1" })]
      = [] :=
  writeStream_paused_until_resume _ (by decide)

/-- Claim C7: handleFeatures takes the TLS branch whenever starttls is
advertised (performing neither SASL nor bind), the SASL branch whenever
starttls is absent and the mechanism list is non-empty (not binding), and
issues the resource bind only when neither starttls nor any mechanism is
advertised. -/
theorem handleFeatures_tiebreak (fe : Features) :
    (fe.Starttls.isSome → handleFeaturesAction fe = .sendStartTls) ∧
    (fe.Starttls = none → fe.Mechanism ≠ [] →
      handleFeaturesAction fe = .chooseSasl) ∧
    (handleFeaturesAction fe = .bindResource →
      fe.Starttls = none ∧ fe.Mechanism = [] ∧ fe.Bind.isSome) := by
  refine ⟨fun h => by simp [handleFeaturesAction, h], fun h hm => ?_, fun h => ?_⟩
  · have : 0 < fe.Mechanism.length := List.length_pos.mpr hm
    simp [handleFeaturesAction, h, this]
  · by_cases h1 : fe.Starttls.isSome
    · simp [handleFeaturesAction, h1] at h
    · by_cases h2 : fe.Mechanism.length > 0
      · simp [handleFeaturesAction, h1, h2] at h
      · by_cases h3 : fe.Bind.isSome
        · refine ⟨Option.not_isSome_iff_eq_none.mp h1, ?_, h3⟩
          exact List.length_eq_zero.mp (Nat.eq_zero_of_not_pos h2)
        · simp [handleFeaturesAction, h1, h2, h3] at h

theorem handleFeatures_tiebreak_witness :
    (handleFeaturesAction ⟨some ⟨none⟩, ["DIGEST-MD5"], some ⟨none, none⟩⟩ =
      .sendStartTls) ∧
    (handleFeaturesAction ⟨none, ["DIGEST-MD5"], some ⟨none, none⟩⟩ =
      .chooseSasl) ∧
    (Features.Starttls ⟨none, [], some ⟨none, none⟩⟩ = none ∧
      Features.Mechanism ⟨none, [], some ⟨none, none⟩⟩ = [] ∧
      (Features.Bind ⟨none, [], some ⟨none, none⟩⟩).isSome) :=
  ⟨(handleFeatures_tiebreak _).1 rfl,
   (handleFeatures_tiebreak _).2.1 rfl (by decide),
   (handleFeatures_tiebreak _).2.2 rfl⟩

/-- Claim C8: ParseStanza on a root element with local name "iq",
"message" or "presence" returns the corresponding variant with no error,
and on any other root local name returns an error and no stanza. -/
theorem parseStanza_dispatch (root : StartElement) :
    (root.Local = "iq" →
      ParseStanza root = .ok (.iq (unmarshalFields root))) ∧
    (root.Local = "message" →
      ParseStanza root = .ok (.message (unmarshalFields root))) ∧
    (root.Local = "presence" →
      ParseStanza root = .ok (.presence (unmarshalFields root))) ∧
    (root.Local ≠ "iq" → root.Local ≠ "message" → root.Local ≠ "presence" →
      ParseStanza root = .error "Not iq, message, or presence") := by
  refine ⟨fun h => by simp [ParseStanza, h], fun h => ?_, fun h => ?_,
    fun h1 h2 h3 => by simp [ParseStanza, h1, h2, h3]⟩
  · have : root.Local ≠ "iq" := by rw [h]; decide
    simp [ParseStanza, this, h]
  · have h1 : root.Local ≠ "iq" := by rw [h]; decide
    have h2 : root.Local ≠ "message" := by rw [h]; decide
    simp [ParseStanza, h1, h2, h]

theorem parseStanza_dispatch_witness :
    (ParseStanza ⟨"jabber:client", "iq", [("id", "1")]⟩ =
      .ok (.iq (unmarshalFields ⟨"jabber:client", "iq", [("id", "1")]⟩))) ∧
    (ParseStanza ⟨"jabber:client", "message", []⟩ =
      .ok (.message (unmarshalFields ⟨"jabber:client", "message", []⟩))) ∧
    (ParseStanza ⟨"jabber:client", "presence", []⟩ =
      .ok (.presence (unmarshalFields ⟨"jabber:client", "presence", []⟩))) ∧
    (ParseStanza ⟨"jabber:client", "bogus", []⟩ =
      .error "Not iq, message, or presence") :=
  ⟨(parseStanza_dispatch _).1 rfl, (parseStanza_dispatch _).2.1 rfl,
   (parseStanza_dispatch _).2.2.1 rfl,
   (parseStanza_dispatch _).2.2.2 (by decide) (by decide) (by decide)⟩

/-- Claim C9: when the roster filter sees an inbound iq of type "set" whose
nested payload is a roster query, it feeds the items to the cache and sends
on the outbound channel exactly one iq of type "result" whose id equals the
received stanza's id (and whose `to` is the sender). -/
theorem maybeUpdateRoster_set_reply (st : Stanza) (rq : RosterQuery)
    (hn : st.getNested = some (.rosterQuery rq))
    (hname : st.getName = "iq") (htyp : st.getType = "set") :
    maybeUpdateRoster st =
      (rq.Item,
       [Stanza.iq { To := st.getFrom, Id := st.getId, Typ := "result" }]) := by
  simp [maybeUpdateRoster, hn, hname, htyp]

theorem maybeUpdateRoster_set_reply_witness :
    maybeUpdateRoster
      (Stanza.iq { From := "srv", Id := "42", Typ := "set",
                   Nested := some (.rosterQuery ⟨[⟨"a@b.c", "both", "", []⟩]⟩) }) =
      ([⟨"a@b.c", "both", "", []⟩],
       [Stanza.iq { To := "srv", Id := "42", Typ := "result" }]) :=
  maybeUpdateRoster_set_reply _ ⟨[⟨"a@b.c", "both", "", []⟩]⟩ rfl rfl rfl

theorem not_lt_mem_xmlEscapeChar (c : Char) : '<' ∉ xmlEscapeChar c := by
  unfold xmlEscapeChar
  split_ifs with h1 h2 h3 h4 h5
  · decide
  · decide
  · decide
  · decide
  · decide
  · intro hm
    rcases List.mem_singleton.mp hm with rfl
    exact h4 rfl

theorem not_lt_mem_xmlEscape (v : List Char) : '<' ∉ xmlEscape v := by
  unfold xmlEscape
  intro hm
  rcases List.mem_flatMap.mp hm with ⟨c, _, hc⟩
  exact not_lt_mem_xmlEscapeChar c hc

theorem not_lt_mem_writeField (field v : List Char) (hf : '<' ∉ field) :
    '<' ∉ writeField field v := by
  unfold writeField
  split_ifs
  · simp
  · intro hm
    rcases List.mem_cons.mp hm with hm | hm
    · exact absurd hm (by decide)
    rcases List.mem_append.mp hm with hm | hm
    · exact hf hm
    rcases List.mem_cons.mp hm with hm | hm
    · exact absurd hm (by decide)
    rcases List.mem_cons.mp hm with hm | hm
    · exact absurd hm (by decide)
    rcases List.mem_append.mp hm with hm | hm
    · exact not_lt_mem_xmlEscape v hm
    · exact absurd hm (by decide)

theorem not_lt_mem_streamMarshalTail (s : StreamHeader) :
    '<' ∉ streamMarshalTail s := by
  unfold streamMarshalTail
  intro hm
  rcases List.mem_append.mp hm with hm | hm
  rotate_left
  · exact absurd hm (by decide)
  rcases List.mem_append.mp hm with hm | hm
  rotate_left
  · exact not_lt_mem_writeField _ _ (by decide) hm
  rcases List.mem_append.mp hm with hm | hm
  rotate_left
  · exact not_lt_mem_writeField _ _ (by decide) hm
  rcases List.mem_append.mp hm with hm | hm
  rotate_left
  · exact not_lt_mem_writeField _ _ (by decide) hm
  rcases List.mem_append.mp hm with hm | hm
  rotate_left
  · exact not_lt_mem_writeField _ _ (by decide) hm
  rcases List.mem_append.mp hm with hm | hm
  rotate_left
  · exact not_lt_mem_writeField _ _ (by decide) hm
  rcases List.mem_append.mp hm with hm | hm
  rotate_left
  · exact not_lt_mem_writeField _ _ (by decide) hm
  rcases List.mem_append.mp hm with hm | hm
  · exact absurd hm (by decide)
  · exact not_lt_mem_writeField _ _ (by decide) hm

theorem streamMarshalXML_head_tail (s : StreamHeader) :
    streamMarshalXML s = '<' :: streamMarshalTail s := rfl

theorem streamMarshalTail_headq (s : StreamHeader) :
    (streamMarshalTail s).head? = some 's' := rfl

/-- Claim C6: the stream-header serialisation is a single opening tag whose
attributes after the two namespace declarations are exactly to, from, id,
xml:lang, version in that order with empty values omitted, and the output
never contains the closing tag `</stream:stream>`. -/
theorem stream_header_serialisation (s : StreamHeader) :
    streamMarshalXML s = streamHeaderSpecShape s ∧
    ¬ ("</stream:stream>".data <:+: streamMarshalXML s) := by
  constructor
  · rfl
  · intro hinf
    rcases hinf with ⟨pre, post, heq⟩
    rw [streamMarshalXML_head_tail] at heq
    have hlit : "</stream:stream>".data = '<' :: '/' :: "stream:stream>".data := rfl
    cases pre with
    | nil =>
      rw [hlit] at heq
      simp only [List.nil_append, List.cons_append] at heq
      have htl : streamMarshalTail s = '/' :: ("stream:stream>".data ++ post) :=
        (List.cons.injEq _ _ _ _ ▸ heq).2.symm
      have := streamMarshalTail_headq s
      rw [htl] at this
      exact absurd (Option.some.inj this) (by decide)
    | cons c pre' =>
      simp only [List.cons_append] at heq
      have hc := (List.cons.injEq _ _ _ _ ▸ heq).2
      have hmem : '<' ∈ streamMarshalTail s := by
        rw [← hc]
        simp
      exact not_lt_mem_streamMarshalTail s hmem

theorem stream_header_serialisation_witness :
    streamMarshalXML ⟨"example.com".data, [], [], [], "1.0".data⟩ =
      streamHeaderSpecShape ⟨"example.com".data, [], [], [], "1.0".data⟩ ∧
    ¬ ("</stream:stream>".data <:+:
      streamMarshalXML ⟨"example.com".data, [], [], [], "1.0".data⟩) :=
  stream_header_serialisation _

theorem takeWhile_append_stop {p : Char → Bool} {l : List Char} {c : Char}
    (r : List Char) (hl : ∀ x ∈ l, p x = true) (hc : p c = false) :
    (l ++ c :: r).takeWhile p = l ∧ (l ++ c :: r).dropWhile p = c :: r := by
  induction l with
  | nil => simp [List.takeWhile_cons, List.dropWhile_cons, hc]
  | cons a l ih =>
    have ha := hl a (List.mem_cons_self a l)
    obtain ⟨ih1, ih2⟩ := ih (fun x hx => hl x (List.mem_cons_of_mem a hx))
    simp [List.takeWhile_cons, List.dropWhile_cons, ha, ih1, ih2]

theorem takeWhile_all_true {p : Char → Bool} {l : List Char}
    (hl : ∀ x ∈ l, p x = true) :
    l.takeWhile p = l ∧ l.dropWhile p = [] := by
  induction l with
  | nil => simp
  | cons a l ih =>
    have ha := hl a (List.mem_cons_self a l)
    obtain ⟨ih1, ih2⟩ := ih (fun x hx => hl x (List.mem_cons_of_mem a hx))
    simp [List.takeWhile_cons, List.dropWhile_cons, ha, ih1, ih2]

theorem saslScan_nil (fuel : Nat) : saslScan fuel [] = [] := by
  cases fuel <;> rfl

theorem saslScan_step_mid (fuel : Nat) (k v rest : List Char)
    (hk : k ≠ []) (hkeq : ∀ x ∈ k, x ≠ '=')
    (hvne : v ≠ []) (hvc : ∀ x ∈ v, x ≠ '"' ∧ x ≠ ',') :
    saslScan (fuel + 1) (k ++ '=' :: (v ++ ',' :: rest)) =
      (k, v) :: saslScan fuel rest := by
  obtain ⟨v0, v', hvv⟩ : ∃ a b, v = a :: b := by
    cases v with
    | nil => exact absurd rfl hvne
    | cons a b => exact ⟨a, b, rfl⟩
  have hkeq' : ∀ x ∈ k, (fun c => decide (c ≠ '=')) x = true := by
    intro x hx
    simp [hkeq x hx]
  have hveq' : ∀ x ∈ v,
      (fun c => decide (c ≠ '"') && decide (c ≠ ',')) x = true := by
    intro x hx
    simp [(hvc x hx).1, (hvc x hx).2]
  obtain ⟨ht, hd⟩ := takeWhile_append_stop (p := fun c => decide (c ≠ '='))
    (c := '=') (v ++ ',' :: rest) hkeq' (by decide)
  obtain ⟨ht2, hd2⟩ := takeWhile_append_stop
    (p := fun c => decide (c ≠ '"') && decide (c ≠ ',')) (c := ',') rest hveq'
    (by decide)
  have hhead : (v ++ ',' :: rest).head? = some v0 := by rw [hvv]; rfl
  have hv0 : v0 ≠ '"' := (hvc v0 (by rw [hvv]; exact List.mem_cons_self _ _)).1
  have hq1 : ¬(some v0 = some '"') := by simp [hv0]
  have hq2 : ¬((some ',' : Option Char) = some '"') := by decide
  rw [saslScan]
  simp only [ht, hd, List.head?_cons, List.tail_cons]
  rw [if_pos trivial, if_neg hk, hhead, if_neg hq1, ht2, hd2, if_neg hvne]
  simp only [List.head?_cons, List.tail_cons]
  rw [if_neg hq2]
  simp only [List.head?_cons, List.tail_cons]
  rw [if_pos trivial]

theorem saslScan_step_last (fuel : Nat) (k v : List Char)
    (hk : k ≠ []) (hkeq : ∀ x ∈ k, x ≠ '=')
    (hvne : v ≠ []) (hvc : ∀ x ∈ v, x ≠ '"' ∧ x ≠ ',') :
    saslScan (fuel + 1) (k ++ '=' :: v) = [(k, v)] := by
  obtain ⟨v0, v', hvv⟩ : ∃ a b, v = a :: b := by
    cases v with
    | nil => exact absurd rfl hvne
    | cons a b => exact ⟨a, b, rfl⟩
  have hkeq' : ∀ x ∈ k, (fun c => decide (c ≠ '=')) x = true := by
    intro x hx
    simp [hkeq x hx]
  have hveq' : ∀ x ∈ v,
      (fun c => decide (c ≠ '"') && decide (c ≠ ',')) x = true := by
    intro x hx
    simp [(hvc x hx).1, (hvc x hx).2]
  obtain ⟨ht, hd⟩ := takeWhile_append_stop (p := fun c => decide (c ≠ '='))
    (c := '=') v hkeq' (by decide)
  obtain ⟨ht2, hd2⟩ := takeWhile_all_true hveq'
  have hhead : v.head? = some v0 := by rw [hvv]; rfl
  have hv0 : v0 ≠ '"' := (hvc v0 (by rw [hvv]; exact List.mem_cons_self _ _)).1
  have hq1 : ¬(some v0 = some '"') := by simp [hv0]
  have hq3 : ¬((none : Option Char) = some '"') := by decide
  have hq4 : ¬((none : Option Char) = some ',') := by decide
  rw [saslScan]
  simp only [ht, hd, List.head?_cons, List.tail_cons]
  rw [if_pos trivial, if_neg hk, hhead, if_neg hq1, ht2, hd2, if_neg hvne]
  simp only [List.head?_nil]
  rw [if_neg hq3]
  simp only [List.head?_nil]
  rw [if_neg hq4, saslScan_nil]

theorem packSasl_eq_join (m : List (List Char × List Char))
    (hkv : ∀ kv ∈ m, SaslEntryOk kv) :
    packSasl m = joinComma (m.map (fun kv => kv.1 ++ '=' :: kv.2)) := by
  unfold packSasl
  congr 1
  congr 1
  rw [List.filter_eq_self]
  intro kv hm
  obtain ⟨hk, hv, _, _, hvc⟩ := hkv kv hm
  have hvq : kv.2 ≠ ['"', '"'] := by
    intro hq
    have := hvc '"' (by rw [hq]; exact List.mem_cons_self _ _)
    exact this.2.1 rfl
  simp [hk, hv, hvq]

theorem saslScan_join (m : List (List Char × List Char))
    (hkv : ∀ kv ∈ m, SaslEntryOk kv) :
    ∀ fuel, m.length ≤ fuel →
      saslScan fuel (joinComma (m.map (fun kv => kv.1 ++ '=' :: kv.2))) = m := by
  induction m with
  | nil => intro fuel _; exact saslScan_nil fuel
  | cons kv rest ih =>
    intro fuel hfuel
    obtain ⟨fuel', rfl⟩ : ∃ f, fuel = f + 1 := by
      cases fuel with
      | zero => exact absurd hfuel (by simp)
      | succ f => exact ⟨f, rfl⟩
    obtain ⟨hkne, hvne, _, hkc, hvc⟩ := hkv kv (List.mem_cons_self kv rest)
    have hkeq : ∀ x ∈ kv.1, x ≠ '=' := fun x hx => (hkc x hx).1
    have hvq : ∀ x ∈ kv.2, x ≠ '"' ∧ x ≠ ',' :=
      fun x hx => ⟨(hvc x hx).2.1, (hvc x hx).2.2⟩
    cases rest with
    | nil =>
      have hjoin : joinComma ([kv].map (fun kv => kv.1 ++ '=' :: kv.2)) =
          kv.1 ++ '=' :: kv.2 := rfl
      rw [hjoin, saslScan_step_last fuel' kv.1 kv.2 hkne hkeq hvne hvq]
    | cons kv2 rest2 =>
      have hjoin : joinComma ((kv :: kv2 :: rest2).map
            (fun kv => kv.1 ++ '=' :: kv.2)) =
          kv.1 ++ '=' :: (kv.2 ++ ',' ::
            joinComma ((kv2 :: rest2).map (fun kv => kv.1 ++ '=' :: kv.2))) := by
        simp [joinComma]
      rw [hjoin, saslScan_step_mid fuel' kv.1 kv.2 _ hkne hkeq hvne hvq,
        ih (fun kv' hm => hkv kv' (List.mem_cons_of_mem kv hm)) fuel'
          (Nat.le_of_succ_le_succ (by simpa using hfuel))]

theorem length_le_packSasl (m : List (List Char × List Char))
    (hkv : ∀ kv ∈ m, SaslEntryOk kv) :
    m.length ≤ (packSasl m).length := by
  rw [packSasl_eq_join m hkv]
  clear hkv
  induction m with
  | nil => simp [joinComma]
  | cons kv rest ih =>
    cases rest with
    | nil =>
      simp only [joinComma, List.map_cons, List.map_nil, List.length_cons,
        List.length_nil, List.length_append]
      omega
    | cons kv2 rest2 =>
      have hjoin : joinComma ((kv :: kv2 :: rest2).map
            (fun kv => kv.1 ++ '=' :: kv.2)) =
          (kv.1 ++ '=' :: kv.2) ++ ',' ::
            joinComma ((kv2 :: rest2).map (fun kv => kv.1 ++ '=' :: kv.2)) := by
        simp [joinComma]
      rw [hjoin]
      simp only [List.length_cons, List.length_append] at ih ⊢
      omega

theorem foldl_saslMapAssign_lookup (ps : List (List Char × List Char))
    (hlow : ∀ kv ∈ ps, goToLower kv.1 = kv.1)
    (hnd : (ps.map Prod.fst).Nodup)
    (base : List Char → Option (List Char)) (k : List Char) :
    ps.foldl saslMapAssign base k =
      match ps.find? (fun kv => kv.1 == k) with
      | some kv => some kv.2
      | none => base k := by
  induction ps generalizing base with
  | nil => rfl
  | cons kv ps ih =>
    have hlow' := fun kv' hm => hlow kv' (List.mem_cons_of_mem kv hm)
    have hnd' : (ps.map Prod.fst).Nodup := (List.nodup_cons.mp hnd).2
    have hnotin : kv.1 ∉ ps.map Prod.fst := (List.nodup_cons.mp hnd).1
    have hlowkv := hlow kv (List.mem_cons_self kv ps)
    rw [List.foldl_cons, ih hlow' hnd']
    by_cases hk : kv.1 = k
    · have hfind : ps.find? (fun kv' => kv'.1 == k) = none := by
        rw [List.find?_eq_none]
        intro kv' hm
        simp only [beq_iff_eq]
        intro hc
        apply hnotin
        rw [hk, ← hc]
        exact List.mem_map_of_mem Prod.fst hm
      rw [hfind, List.find?_cons_of_pos _ (by simp [hk])]
      show saslMapAssign base kv k = some kv.2
      unfold saslMapAssign
      rw [hlowkv, if_pos hk.symm]
    · rw [List.find?_cons_of_neg _ (by simp [hk])]
      cases hfind : ps.find? (fun kv' => kv'.1 == k) with
      | some kv' => rfl
      | none =>
        show saslMapAssign base kv k = base k
        unfold saslMapAssign
        rw [if_neg (fun hc => hk (hlowkv ▸ hc).symm)]

/-- Claim C10: packSasl is a right inverse of parseSasl on well-formed
challenge maps: for a map whose keys are non-empty lower-case strings and
values non-empty strings, none containing '=', '"' or ',', parsing the
packed string yields the original map (the map being represented as an
association list with distinct keys, its lookup compared pointwise). -/
theorem parseSasl_packSasl_roundtrip (m : List (List Char × List Char))
    (hkv : ∀ kv ∈ m, SaslEntryOk kv)
    (hnd : (m.map Prod.fst).Nodup) :
    parseSasl (packSasl m) =
      fun k => (m.find? (fun kv => kv.1 == k)).map Prod.snd := by
  funext k
  unfold parseSasl
  rw [packSasl_eq_join m hkv,
    saslScan_join m hkv _ (by
      rw [← packSasl_eq_join m hkv]
      exact length_le_packSasl m hkv),
    foldl_saslMapAssign_lookup m (fun kv hm => (hkv kv hm).2.2.1) hnd]
  cases m.find? (fun kv => kv.1 == k) <;> rfl

theorem parseSasl_packSasl_roundtrip_witness :
    parseSasl (packSasl
      [("username".data, "chris".data), ("nonce".data, "OA6MG9tEQGm2hh".data),
       ("qop".data, "auth".data)]) =
      fun k => (([("username".data, "chris".data),
        ("nonce".data, "OA6MG9tEQGm2hh".data),
        ("qop".data, "auth".data)]).find? (fun kv => kv.1 == k)).map Prod.snd :=
  parseSasl_packSasl_roundtrip _ (by decide) (by decide)

end Goexmpp
